import Mathlib

/-!
Verification development for the `graceful` repository: a declarative
object-serialization layer (`graceful/serializers.py`) together with a
media-type negotiation component (`graceful/media/base.py`,
`graceful/media/handlers.py`, `graceful/media/json.py`).

The Python code is shallowly embedded: Python dictionaries become
association lists over `String` keys with explicit insert/lookup
operations mirroring CPython dict semantics (first occurrence fixes the
position of a key, a later insert with the same key overwrites the value
in place), Python runtime values become the inductive type `Value`, and
raised exceptions become `Except PyErr` results.
-/

set_option maxHeartbeats 1000000

namespace Graceful

/-- A generic Python runtime value as it flows through the serializer and
the media codecs: `none`/null, booleans, integers, strings, lists and
string-keyed mappings (dictionaries / map-like internal objects). -/
inductive Value where
  | null
  | bool (b : Bool)
  | int (n : Int)
  | str (s : String)
  | list (items : List Value)
  | obj (entries : List (String × Value))

/-- Python exceptions raised by the embedded code.  `keyError` models a
failed subscript lookup, `valueError` a `ValueError` (also used for the
validation errors surfaced by field validators), `typeError` an attempt to
iterate a non-iterable value, `badRequest` a `falcon.HTTPBadRequest`, and
`unsupportedMediaType` a `falcon.HTTPUnsupportedMediaType` carrying the
rejected media type and the list of allowed media types that the
diagnostic message enumerates. -/
inductive PyErr where
  | keyError (k : String)
  | valueError (msg : String)
  | typeError (msg : String)
  | badRequest (description : String)
  | unsupportedMediaType (rejected : String) (allowed : List String)
deriving DecidableEq

/-- `true` exactly on the `null` value (Python `value is None`). -/
def Value.isNull : Value → Bool
  | .null => true
  | _ => false

/-- First-match lookup in an association list: the value stored under key
`k`, if any.  On lists with no duplicate keys this is exactly Python
`dict.__getitem__` / `dict.get`. -/
def lookupStr {α : Type} : List (String × α) → String → Option α
  | [], _ => none
  | (k', v) :: rest, k => if k' = k then some v else lookupStr rest k

/-- Python `k in d` for an association list viewed as a dict. -/
def containsKey {α : Type} (l : List (String × α)) (k : String) : Bool :=
  (lookupStr l k).isSome

/-- The key list of an association list (Python `list(d)` for a dict). -/
def keysOf {α : Type} (l : List (String × α)) : List String :=
  l.map Prod.fst

/-- A single CPython dict insertion `d[k] = v` on an association list: if
the key is already present its value is overwritten in place (keeping the
key position), otherwise the pair is appended at the end. -/
def odinsert {α : Type} (l : List (String × α)) (kv : String × α) :
    List (String × α) :=
  if containsKey l kv.1 then
    l.map (fun p => if p.1 = kv.1 then (kv.1, kv.2) else p)
  else
    l ++ [kv]

/-- CPython `dict(pairs)` on a list of pairs: insert the pairs from left
to right, so the first occurrence of a key fixes its position and the
last occurrence fixes its value.  This is the semantics used by
`OrderedDict(fields)` in `MetaSerializer._get_fields` and by dict
comprehensions. -/
def odictOfList {α : Type} (l : List (String × α)) : List (String × α) :=
  l.foldl odinsert []

/-- Python `d.update(other)` on association lists viewed as dicts. -/
def odictUpdate {α : Type} (l other : List (String × α)) :
    List (String × α) :=
  other.foldl odinsert l

/-!
## Field model

The repository imports `BaseField` from `graceful/fields.py`, which is not
part of the sources at hand; only `graceful/serializers.py`, its tests and
the spec describe fields.  `FieldSpec` is therefore modelled from the
spec: a field carries `source`, `many`, `read_only`, `write_only`,
`allow_null`, an ordered validator chain, and the two pure per-value
transforms `to_representation` / `from_representation` that
`BaseSerializer` calls on it.
-/

/-- Modelled from the spec: the missing `graceful/fields.py` `BaseField`.
Attributes follow section 3 of the spec (`source` with `none` for unset,
`many`, `readOnly`/`writeOnly`/`allowNull` flags, ordered `validators`)
and the two transforms are the `field.to_representation` /
`field.from_representation` methods that `BaseSerializer` invokes. -/
structure FieldSpec where
  source : Option String := none
  many : Bool := false
  read_only : Bool := false
  write_only : Bool := false
  allow_null : Bool := false
  validators : List (Value → Except String Unit) := []
  to_representation : Value → Value
  from_representation : Value → Value

/-- Modelled from the spec: run the configured validators in declaration
order; the first failing validator aborts the chain. -/
def runValidators : List (Value → Except String Unit) → Value →
    Except String Unit
  | [], _ => .ok ()
  | v :: rest, value =>
    match v value with
    | .ok _ => runValidators rest value
    | .error e => .error e

/-- Modelled from the spec: `field.validate` as used by
`BaseSerializer.from_representation` (which stores its result): a null
value bypasses the validators entirely when `allow_null` is set;
otherwise the validator chain runs and, on success, the validated value
itself is returned. -/
def FieldSpec.validate (f : FieldSpec) (value : Value) :
    Except String Value :=
  if f.allow_null && value.isNull then .ok value
  else
    match runValidators f.validators value with
    | .ok _ => .ok value
    | .error e => .error e

/-- Python `field.source or name`: the explicit source when it is set and
non-empty (Python `or` treats the empty string as falsy), else the field
name. -/
def sourceOr (f : FieldSpec) (name : String) : String :=
  match f.source with
  | none => name
  | some s => if s = "" then name else s

/-!
## Serializer (`graceful/serializers.py`)
-/

/-- `BaseSerializer.get_attribute(obj, attr)`: the wildcard source `*`
returns the whole object; a mapping is read by key with a `None` default;
anything else is read by attribute name with a `None` default (for the
non-mapping values of our `Value` universe there are no data attributes,
so the lookup yields null). -/
def get_attribute (obj : Value) (attr : String) : Value :=
  if attr = "*" then obj
  else
    match obj with
    | .obj entries => (lookupStr entries attr).getD .null
    | _ => .null

/-- Python iteration `for item in attribute` over a `Value`: lists yield
their elements, strings their one-character substrings, mappings their
keys; `none` signals a `TypeError` (non-iterable value). -/
def pyIter : Value → Option (List Value)
  | .list items => some items
  | .str s => some (s.data.map (fun c => .str (String.mk [c])))
  | .obj entries => some (entries.map (fun kv => .str kv.1))
  | _ => none

/-- `BaseSerializer.to_representation(obj)`: for each field, in field
order, resolve the attribute via `field.source or name`; a `None`
attribute becomes an empty list (`many`) or null, a `many` attribute is
mapped element-wise through `field.to_representation`, and otherwise the
field transform is applied once.  The serializer applies every field,
with no `read_only`/`write_only` filtering.  Field names are the keys of
an `OrderedDict`, hence pairwise distinct, so building the result dict by
consing entries in field order is exactly the Python dict construction. -/
def to_representation (fields : List (String × FieldSpec)) (obj : Value) :
    Except PyErr (List (String × Value)) :=
  match fields with
  | [] => .ok []
  | (name, field) :: rest =>
    let attr_value := get_attribute obj (sourceOr field name)
    let entry : Except PyErr Value :=
      if attr_value.isNull then
        .ok (if field.many then .list [] else .null)
      else if field.many then
        match pyIter attr_value with
        | some items => .ok (.list (items.map field.to_representation))
        | none => .error (.typeError ("not iterable"))
      else
        .ok (field.to_representation attr_value)
    match entry with
    | .error e => .error e
    | .ok v =>
      match to_representation rest obj with
      | .error e => .error e
      | .ok restRep => .ok ((name, v) :: restRep)

/-- The sequence of `(field.source or name, field.validate(
field.from_representation(representation[name])))` pairs produced by the
dict comprehension in `BaseSerializer.from_representation`, evaluated in
field order with the first raised exception aborting the comprehension.
A field is skipped exactly when `part` (the `partial` argument) is true
and its name is absent; otherwise an absent name raises `KeyError`. -/
def fromRepPairs (fields : List (String × FieldSpec))
    (representation : List (String × Value)) (part : Bool) :
    Except PyErr (List (String × Value)) :=
  match fields with
  | [] => .ok []
  | (name, field) :: rest =>
    if part && !(containsKey representation name) then
      fromRepPairs rest representation part
    else
      match lookupStr representation name with
      | none => .error (.keyError name)
      | some external =>
        match field.validate (field.from_representation external) with
        | .error msg => .error (.valueError msg)
        | .ok internal =>
          match fromRepPairs rest representation part with
          | .error e => .error e
          | .ok tail => .ok ((sourceOr field name, internal) :: tail)

/-- `BaseSerializer.from_representation(representation, partial)`: the
dict built from the comprehension pairs. -/
def from_representation (fields : List (String × FieldSpec))
    (representation : List (String × Value)) (part : Bool) :
    Except PyErr (List (String × Value)) :=
  match fromRepPairs fields representation part with
  | .error e => .error e
  | .ok pairs => .ok (odictOfList pairs)

/-- `MetaSerializer._get_fields(bases, namespace)`: starting from the
field-valued bindings declared directly in the class body (in declaration
order), prepend the `_fields` of every base class walking the bases in
reverse, then normalise with `OrderedDict`.  After the loop the pair list
is `bases[0].fields ++ bases[1].fields ++ ... ++ own`. -/
def get_fields (bases : List (List (String × FieldSpec)))
    (own : List (String × FieldSpec)) : List (String × FieldSpec) :=
  odictOfList (bases.foldr (fun b fields => b ++ fields) own)

/-!
## Media codecs and the media registry
(`graceful/media/base.py`, `graceful/media/json.py`,
`graceful/media/handlers.py`)

Only the metadata the registry consults is modelled per codec: the
canonical `media_type` and the `allowed_media_types` that
`BaseMediaHandler.__init__` computes (a set, modelled as a duplicate-free
list).  `mimeparse.best_match` is an external collaborator and is passed
in explicitly: `Except.error ()` models it raising `ValueError`, and
`Except.ok s` models it returning the string `s` (the empty string when
no registered key pattern-matches the requested type).
-/

/-- A media codec as seen by the registry. -/
structure Handler where
  media_type : String
  allowed_media_types : List String
deriving DecidableEq

/-- `JSONHandler()`: canonical type `application/json`, and
`BaseMediaHandler.__init__` with no extra media types makes its allowed
set the singleton of the canonical type. -/
def jsonHandler : Handler :=
  { media_type := "application/json"
    allowed_media_types := ["application/json"] }

/-- The built-in handler mapping `MediaHandlers.__init__` uses when the
`handlers` argument is `None` or an empty (falsy) mapping. -/
def defaultHandlers : List (String × Handler) :=
  [("application/json", jsonHandler),
   ("application/json; charset=UTF-8", jsonHandler)]

/-- The handler mapping after the first half of `MediaHandlers.__init__`:
`self.handlers = handlers or {json defaults}` followed, when `handlers`
is not `None`, by `self.handlers.update(extra_handlers)` where
`extra_handlers` collects every supplied codec entry for each of its
`allowed_media_types` not already registered. -/
def resolvedHandlers (handlers : Option (List (String × Handler))) :
    List (String × Handler) :=
  match handlers with
  | none => defaultHandlers
  | some given =>
    let base := if given = [] then defaultHandlers else given
    let extra := odictOfList
      ((given.map Prod.snd).flatMap (fun h =>
        (h.allowed_media_types.filter
          (fun mt => !(containsKey base mt))).map (fun mt => (mt, h))))
    odictUpdate base extra

/-- The media registry: `default_media_type`, the mutable `handlers`
mapping, and the `allowed_media_types` that `super().__init__(
extra_media_types=list(self.handlers))` fixes at construction time. -/
structure MediaHandlers where
  default_media_type : String
  handlers : List (String × Handler)
  allowed_media_types : List String
deriving DecidableEq

/-- `MediaHandlers.__init__(default_media_type, handlers)`: build the
handler mapping, then raise `ValueError` when the default media type is
not among its keys, and otherwise record the allowed set
`set([self.media_type] + list(self.handlers))`. -/
def MediaHandlers.init (default_media_type : String)
    (handlers : Option (List (String × Handler))) :
    Except PyErr MediaHandlers :=
  let hs := resolvedHandlers handlers
  if containsKey hs default_media_type then
    .ok { default_media_type := default_media_type
          handlers := hs
          allowed_media_types := (default_media_type :: keysOf hs).dedup }
  else
    .error (.valueError
      ("no handler for default media type \x27" ++ default_media_type ++ "\x27"))

/-- The diagnostic message of the `falcon.HTTPUnsupportedMediaType`
raised by `MediaHandlers.lookup_handler`: it names the rejected type and
joins the quoted allowed media types. -/
def unsupportedDescription (rejected : String) (allowed : List String) :
    String :=
  "\x27" ++ rejected ++ "\x27 is an unsupported media type, supported " ++
    "media types: " ++
    String.intercalate (", ")
      (allowed.map (fun mt => "\x27" ++ mt ++ "\x27"))

/-- `MediaHandlers.lookup_handler(media_type, default_media_type)`.  The
empty string models both Python `None` and `''` (they are
indistinguishable here: both are falsy and neither equals `'*/*'`).

Mirrors the source: an empty or wildcard requested type is replaced by
`default_media_type or self.media_type`; then an exact `.get` lookup;
on miss, `resolved = mimeparse.best_match(self.handlers, media_type)`
inside a `try` whose `except (AssertionError, KeyError, ValueError)`
raises `HTTPUnsupportedMediaType` and whose `else` caches the handler
under the literal requested string.  Note the source asserts
`not resolved`, so a nonempty `best_match` result raises
`AssertionError`, and the success path needs `resolved` to be the empty
string and registered.  Returns the raised-or-returned result together
with the (possibly cached-into) registry state. -/
def lookup_handler (best_match : List String → String → Except Unit String)
    (self : MediaHandlers) (media_type : String)
    (default_media_type : String) :
    Except PyErr Handler × MediaHandlers :=
  let mt :=
    if media_type = "*/*" ∨ media_type = "" then
      if default_media_type = "" then self.default_media_type
      else default_media_type
    else media_type
  match lookupStr self.handlers mt with
  | some handler => (.ok handler, self)
  | none =>
    let fail : Except PyErr Handler × MediaHandlers :=
      (.error (.unsupportedMediaType mt self.allowed_media_types), self)
    match best_match (keysOf self.handlers) mt with
    | .error _ => fail
    | .ok resolved =>
      if resolved ≠ "" then fail
      else
        match lookupStr self.handlers resolved with
        | none => fail
        | some handler =>
          (.ok handler,
           { self with handlers := odinsert self.handlers (mt, handler) })

/-- The bytes `JSONHandler.deserialize` reads from the stream:
`stream.read(content_length or 0)`, i.e. up to `content_length` bytes
when the declared length is set, and zero bytes when it is unset
(`None`) or zero (both falsy). -/
def readBytes (stream : List Nat) (content_length : Option Nat) :
    List Nat :=
  stream.take (content_length.getD 0)

/-- Modelled from the spec, for comparison with `readBytes`: the reading
behaviour the spec describes for `decode`, namely exactly up to
`declaredLength` bytes when the length is set, and all available bytes
of the stream when the length is unset or zero. -/
def specReadBytes (stream : List Nat) (content_length : Option Nat) :
    List Nat :=
  match content_length with
  | none => stream
  | some 0 => stream
  | some n => stream.take n

/-- `JSONHandler.deserialize(stream, content_type, content_length)` with
the JSON text codec `loads` treated as an opaque collaborator: parse the
bytes read from the stream, converting a parse `ValueError` into
`falcon.HTTPBadRequest`. -/
def JSONHandler.deserialize (loads : List Nat → Except String Value)
    (stream : List Nat) (content_length : Option Nat) :
    Except PyErr Value :=
  match loads (readBytes stream content_length) with
  | .ok v => .ok v
  | .error err =>
    .error (.badRequest ("Could not parse JSON body - " ++ err))

/-!
## Derived notions and concrete instances used by the theorems
-/

/-- `true` exactly on a `KeyError`. -/
def PyErr.isKeyError : PyErr → Bool
  | .keyError _ => true
  | _ => false

/-- The amended reading behaviour of `JSONHandler.deserialize`, stated in
the amended claim's words: exactly up to the declared length in bytes
when the length is set and nonzero, and zero bytes when the length is
unset or zero. -/
def amendedReadBytes (stream : List Nat) (content_length : Option Nat) :
    List Nat :=
  match content_length with
  | none => []
  | some 0 => []
  | some n => stream.take n

/-- The claim-side notion for the round-trip property: the map-like
internal object `kvs` restricted to the fields' source keys, as an
ordered mapping from each source key to the object's value there. -/
def restrictToSources (fields : List (String × FieldSpec))
    (kvs : List (String × Value)) : List (String × Value) :=
  odictOfList (fields.map (fun p =>
    (sourceOr p.2 p.1, (lookupStr kvs (sourceOr p.2 p.1)).getD .null)))

/-- The override map used to describe field inheritance: keep each entry
of the inherited table in place, replacing its value by the directly
declared one when the derived class re-declares the name. -/
def overrideWith {α : Type} (own : List (String × α)) (p : String × α) :
    String × α :=
  match lookupStr own p.1 with
  | some w => (p.1, w)
  | none => p

/-- The outcome shape asserted for `lookup_handler`: a returned handler
is one of the registry's stored values, and any raised error is an
unsupported-media-type error. -/
def lookupOutcomeOk : Except PyErr Handler → MediaHandlers → Prop
  | .ok h, self => h ∈ self.handlers.map Prod.snd
  | .error (.unsupportedMediaType _ _), _ => True
  | .error _, _ => False

/-- The test suite's `ExampleField`: raw (identity) representation in
both directions, no flags, no validators. -/
def exampleField : FieldSpec :=
  { to_representation := fun v => v
    from_representation := fun v => v }

/-- The serializer of the repository test
`test_serializer_read_only_write_only_serialization`: a read-only and a
write-only identity field. -/
def c1Fields : List (String × FieldSpec) :=
  [("readonly", { exampleField with read_only := true }),
   ("writeonly", { exampleField with write_only := true })]

/-- The internal object of that test. -/
def c1Obj : Value :=
  .obj [("writeonly", .str ("foo")), ("readonly", .str ("bar"))]

/-- The registry state produced by `MediaHandlers.init` with all
arguments defaulted (Python `MediaHandlers()`). -/
def defaultRegistry : MediaHandlers :=
  { default_media_type := "application/json"
    handlers := defaultHandlers
    allowed_media_types :=
      ["application/json", "application/json; charset=UTF-8"] }

/-- A model of `mimeparse.best_match` at the inputs of the pattern-match
scenario: for a parameterized variant of a registered type it returns a
successful (nonempty) best match among the registered keys, as the real
`mimeparse` does. -/
def c2BestMatch : List String → String → Except Unit String :=
  fun _ _ => .ok ("application/json; charset=UTF-8")

/-- A concrete stand-in for the opaque `json.loads` collaborator: fails
on an empty byte string (as `json.loads` does, with the familiar
`Expecting value` diagnostic) and otherwise returns a value recording
how many bytes were parsed. -/
def c3Loads : List Nat → Except String Value :=
  fun bs => if bs = [] then .error ("Expecting value") else .ok (.int bs.length)

/-- A field whose source is the `*` wildcard (the whole object), with
identity transforms, as in the repository test
`test_serializer_source_field_with_wildcard`. -/
def starField : FieldSpec :=
  { exampleField with source := some ("*") }

/-- An involutive, non-identity value transform: swaps null and the
integer zero, and fixes everything else. -/
def swapVal : Value → Value :=
  fun v =>
    match v with
    | .null => .int 0
    | .int 0 => .null
    | w => w

/-- A multi-valued (`many`) field whose two transforms are the involution
`swapVal` (hence pure and mutually inverse), with no validators. -/
def upField : FieldSpec :=
  { many := true
    to_representation := swapVal
    from_representation := swapVal }

/-- A serializer exhibiting the wildcard-source and `many` failure modes
of the round-trip claim. -/
def c5Fields : List (String × FieldSpec) :=
  [("starfield", starField), ("up", upField)]

/-- An internal object defined (with non-null values) on both source keys
of `c5Fields`. -/
def c5Entries : List (String × Value) :=
  [("*", .str ("q")), ("up", .list [.null])]

/-- The `_name`/`_address` serializer of the repository test
`test_serialiser_sources_representation`: identity fields whose external
names differ from their sources. -/
def c5NamedFields : List (String × FieldSpec) :=
  [("name", { exampleField with source := some ("_name") }),
   ("address", { exampleField with source := some ("_address") })]

/-- The internal object of that test. -/
def c5NamedEntries : List (String × Value) :=
  [("_name", .str ("John")), ("_address", .str ("US")),
   ("gender", .str ("male"))]

/-- A validator that rejects every value. -/
def alwaysFail : Value → Except String Unit :=
  fun _ => .error ("boom")

/-- A serializer whose first field carries a failing validator and whose
second field is a plain identity field. -/
def c9Fields : List (String × FieldSpec) :=
  [("a", { exampleField with validators := [alwaysFail] }),
   ("b", exampleField)]

/-- A representation supplying the first field of `c9Fields` but not the
second. -/
def c9Rep : List (String × Value) :=
  [("a", .str ("x"))]

/-- A parent serializer's field table (`foo` then `bar`), as in the
repository test `test_serializer_field_overriding`. -/
def c4Base : List (String × FieldSpec) :=
  [("foo", { exampleField with source := some ("parent_foo") }),
   ("bar", exampleField)]

/-- A derived class body overriding `foo` and adding `baz`. -/
def c4Own : List (String × FieldSpec) :=
  [("foo", { exampleField with source := some ("derived_foo") }),
   ("baz", exampleField)]

/-!
## Dictionary-semantics lemmas
-/

@[simp] theorem keysOf_nil {α : Type} : keysOf ([] : List (String × α)) = [] := rfl

@[simp] theorem keysOf_cons {α : Type} (p : String × α) (l : List (String × α)) :
    keysOf (p :: l) = p.1 :: keysOf l := rfl

@[simp] theorem keysOf_append {α : Type} (l1 l2 : List (String × α)) :
    keysOf (l1 ++ l2) = keysOf l1 ++ keysOf l2 := List.map_append _ _ _

theorem lookupStr_eq_none_iff {α : Type} {l : List (String × α)} {k : String} :
    lookupStr l k = none ↔ k ∉ keysOf l := by
  induction l with
  | nil => simp [lookupStr]
  | cons p rest ih =>
    obtain ⟨k', v⟩ := p
    by_cases h : k' = k
    · subst h
      simp [lookupStr]
    · simp only [lookupStr, if_neg h, ih, keysOf_cons, List.mem_cons, not_or]
      constructor
      · intro hnk
        exact ⟨fun he => h he.symm, hnk⟩
      · intro hh
        exact hh.2

theorem lookupStr_eq_none_of_not_mem {α : Type} {l : List (String × α)}
    {k : String} (h : k ∉ keysOf l) : lookupStr l k = none :=
  lookupStr_eq_none_iff.mpr h

theorem containsKey_iff {α : Type} {l : List (String × α)} {k : String} :
    containsKey l k = true ↔ k ∈ keysOf l := by
  rw [containsKey, Option.isSome_iff_ne_none, ne_eq, lookupStr_eq_none_iff,
    not_not]

theorem containsKey_false_iff {α : Type} {l : List (String × α)} {k : String} :
    containsKey l k = false ↔ k ∉ keysOf l := by
  rw [← Bool.not_eq_true, containsKey_iff]

theorem containsKey_eq_of_keysOf_eq {α β : Type} {l1 : List (String × α)}
    {l2 : List (String × β)} (h : keysOf l1 = keysOf l2) (k : String) :
    containsKey l1 k = containsKey l2 k := by
  by_cases hm : k ∈ keysOf l2
  · rw [containsKey_iff.mpr hm, containsKey_iff.mpr (h ▸ hm)]
  · rw [containsKey_false_iff.mpr hm, containsKey_false_iff.mpr (h ▸ hm)]

theorem lookupStr_mem_values {α : Type} {l : List (String × α)} {k : String}
    {v : α} (h : lookupStr l k = some v) : v ∈ l.map Prod.snd := by
  induction l with
  | nil => simp [lookupStr] at h
  | cons p rest ih =>
    obtain ⟨k', w⟩ := p
    by_cases hk : k' = k
    · simp [lookupStr, hk] at h
      simp [h]
    · simp only [lookupStr, if_neg hk] at h
      simp [ih h]

theorem keysOf_update {α : Type} (l : List (String × α)) (k : String) (v : α) :
    keysOf (l.map (fun p => if p.1 = k then (k, v) else p)) = keysOf l := by
  induction l with
  | nil => rfl
  | cons p rest ih =>
    by_cases hp : p.1 = k <;> simp [hp, ih]

theorem keysOf_odinsert {α : Type} (l : List (String × α)) (kv : String × α) :
    keysOf (odinsert l kv) =
      if containsKey l kv.1 then keysOf l else keysOf l ++ [kv.1] := by
  cases hc : containsKey l kv.1 <;> simp [odinsert, hc, keysOf_update]

@[simp] theorem overrideWith_fst {α : Type} (own : List (String × α))
    (p : String × α) : (overrideWith own p).1 = p.1 := by
  unfold overrideWith
  cases lookupStr own p.1 <;> rfl

theorem keysOf_map_overrideWith {α : Type} (own l : List (String × α)) :
    keysOf (l.map (overrideWith own)) = keysOf l := by
  induction l with
  | nil => rfl
  | cons p rest ih => simp [ih]

theorem keysOf_filter {α : Type} (q : String → Bool) (l : List (String × α)) :
    keysOf (l.filter (fun p => q p.1)) = (keysOf l).filter q := by
  induction l with
  | nil => rfl
  | cons p rest ih => cases hq : q p.1 <;> simp [List.filter_cons, hq, ih]

theorem foldl_odinsert_eq {α : Type} (own : List (String × α)) :
    ∀ acc : List (String × α), (keysOf own).Nodup →
      own.foldl odinsert acc =
        acc.map (overrideWith own) ++
          own.filter (fun p => !(containsKey acc p.1)) := by
  induction own with
  | nil =>
    intro acc _
    have hfun : overrideWith ([] : List (String × α)) = fun p => p :=
      funext fun p => rfl
    simp [hfun]
  | cons q rest ih =>
    intro acc hnd
    obtain ⟨k, w⟩ := q
    have hk : k ∉ keysOf rest := (List.nodup_cons.mp hnd).1
    have hrest : (keysOf rest).Nodup := (List.nodup_cons.mp hnd).2
    rw [List.foldl_cons, ih _ hrest]
    cases hc : containsKey acc k with
    | true =>
      have hins : odinsert acc (k, w) =
          acc.map (fun p => if p.1 = k then (k, w) else p) := by
        simp [odinsert, hc]
      have hmap : (acc.map (fun p => if p.1 = k then (k, w) else p)).map
            (overrideWith rest) =
          acc.map (overrideWith ((k, w) :: rest)) := by
        rw [List.map_map]
        refine List.map_congr_left (fun p _ => ?_)
        by_cases hpk : p.1 = k
        · simp only [Function.comp, if_pos hpk]
          unfold overrideWith
          simp [lookupStr, lookupStr_eq_none_of_not_mem hk, hpk]
        · simp only [Function.comp, if_neg hpk]
          unfold overrideWith
          simp only [lookupStr]
          rw [if_neg (fun h => hpk h.symm)]
      have hfil : rest.filter
            (fun p => !(containsKey (odinsert acc (k, w)) p.1)) =
          rest.filter (fun p => !(containsKey acc p.1)) := by
        refine List.filter_congr (fun p _ => ?_)
        have hkeys : keysOf (odinsert acc (k, w)) = keysOf acc := by
          rw [hins, keysOf_update]
        rw [containsKey_eq_of_keysOf_eq hkeys]
      have hfil2 : ((k, w) :: rest).filter (fun p => !(containsKey acc p.1)) =
          rest.filter (fun p => !(containsKey acc p.1)) := by
        simp [List.filter_cons, hc]
      rw [hfil, hins, hmap, hfil2]
    | false =>
      have hins : odinsert acc (k, w) = acc ++ [(k, w)] := by
        simp [odinsert, hc]
      have hknotacc : k ∉ keysOf acc := containsKey_false_iff.mp hc
      have hmap : acc.map (overrideWith rest) =
          acc.map (overrideWith ((k, w) :: rest)) := by
        refine List.map_congr_left (fun p hp => ?_)
        have hpk : k ≠ p.1 := by
          intro he
          exact hknotacc (he ▸ List.mem_map_of_mem Prod.fst hp)
        unfold overrideWith
        simp [lookupStr, hpk]
      have hfil : rest.filter
            (fun p => !(containsKey (acc ++ [(k, w)]) p.1)) =
          rest.filter (fun p => !(containsKey acc p.1)) := by
        refine List.filter_congr (fun p hp => ?_)
        have hpk : p.1 ≠ k := by
          intro he
          exact hk (he ▸ List.mem_map_of_mem Prod.fst hp)
        have hkeys : keysOf (acc ++ [(k, w)]) = keysOf acc ++ [k] := by simp
        by_cases hm : p.1 ∈ keysOf acc
        · rw [containsKey_iff.mpr hm, containsKey_iff.mpr (by simp [hm])]
        · have hm2 : p.1 ∉ keysOf (acc ++ [(k, w)]) := by
            simp [hm, hpk]
          rw [containsKey_false_iff.mpr hm, containsKey_false_iff.mpr hm2]
      have hovr : overrideWith rest (k, w) = (k, w) := by
        unfold overrideWith
        simp [lookupStr_eq_none_of_not_mem hk]
      have hfil2 : ((k, w) :: rest).filter (fun p => !(containsKey acc p.1)) =
          (k, w) :: rest.filter (fun p => !(containsKey acc p.1)) := by
        simp [List.filter_cons, hc]
      rw [hins, hfil, List.map_append, hfil2]
      simp [hmap, hovr]

theorem odictOfList_of_nodup {α : Type} (l : List (String × α))
    (h : (keysOf l).Nodup) : odictOfList l = l := by
  rw [odictOfList, foldl_odinsert_eq l [] h]
  have : ∀ p : String × α, (!(containsKey ([] : List (String × α)) p.1)) = true := by
    intro p
    rfl
  simp [List.filter_eq_self.mpr (fun p _ => this p)]

/-!
## Serializer lemmas
-/

theorem get_fields_eq_odict (base own : List (String × FieldSpec)) :
    get_fields [base] own = odictOfList (base ++ own) := rfl

theorem get_fields_single (base own : List (String × FieldSpec))
    (hb : (keysOf base).Nodup) (ho : (keysOf own).Nodup) :
    get_fields [base] own =
      base.map (overrideWith own) ++
        own.filter (fun p => !(containsKey base p.1)) := by
  rw [get_fields_eq_odict, odictOfList, List.foldl_append]
  have hbase : base.foldl odinsert [] = base := by
    rw [← odictOfList, odictOfList_of_nodup base hb]
  rw [hbase, foldl_odinsert_eq own base ho]

theorem get_attribute_obj (kvs : List (String × Value)) (attr : String)
    (h : attr ≠ "*") :
    get_attribute (.obj kvs) attr = (lookupStr kvs attr).getD .null := by
  simp [get_attribute, h]

theorem to_representation_of_obj
    (fields : List (String × FieldSpec)) (kvs : List (String × Value))
    (hmany : ∀ p ∈ fields, p.2.many = false)
    (hsrc : ∀ p ∈ fields, sourceOr p.2 p.1 ≠ "*")
    (hdef : ∀ p ∈ fields,
      ((lookupStr kvs (sourceOr p.2 p.1)).getD .null).isNull = false) :
    to_representation fields (.obj kvs) =
      .ok (fields.map (fun p =>
        (p.1, p.2.to_representation
          ((lookupStr kvs (sourceOr p.2 p.1)).getD .null)))) := by
  induction fields with
  | nil => rfl
  | cons q rest ih =>
    obtain ⟨name, f⟩ := q
    have hm : f.many = false := hmany (name, f) (List.mem_cons_self _ _)
    have hs : sourceOr f name ≠ "*" := hsrc (name, f) (List.mem_cons_self _ _)
    have hd : ((lookupStr kvs (sourceOr f name)).getD Value.null).isNull = false :=
      hdef (name, f) (List.mem_cons_self _ _)
    have htail := ih (fun p hp => hmany p (List.mem_cons_of_mem _ hp))
      (fun p hp => hsrc p (List.mem_cons_of_mem _ hp))
      (fun p hp => hdef p (List.mem_cons_of_mem _ hp))
    simp only [to_representation, get_attribute_obj kvs _ hs, hd, hm,
      Bool.false_eq_true, if_false, htail, List.map_cons]

theorem lookupStr_map_keys {α β : Type} (fields : List (String × α))
    (g : String × α → β) (hn : (keysOf fields).Nodup) :
    ∀ p ∈ fields, lookupStr (fields.map (fun q => (q.1, g q))) p.1 = some (g p) := by
  induction fields with
  | nil =>
    intro p hp
    cases hp
  | cons q rest ih =>
    intro p hp
    rcases List.mem_cons.mp hp with rfl | hp'
    · simp [lookupStr]
    · have hk : q.1 ≠ p.1 := by
        intro he
        exact (List.nodup_cons.mp hn).1 (he ▸ List.mem_map_of_mem Prod.fst hp')
      simp only [List.map_cons, lookupStr, if_neg hk]
      exact ih (List.nodup_cons.mp hn).2 p hp'

theorem fromRepPairs_of_lookups
    (fields : List (String × FieldSpec)) (rep : List (String × Value))
    (g : String × FieldSpec → Value)
    (hlook : ∀ p ∈ fields,
      lookupStr rep p.1 = some (p.2.to_representation (g p)))
    (hinv : ∀ p ∈ fields, ∀ v,
      p.2.from_representation (p.2.to_representation v) = v)
    (hval : ∀ p ∈ fields, ∀ v, p.2.validate v = .ok v) :
    fromRepPairs fields rep false =
      .ok (fields.map (fun p => (sourceOr p.2 p.1, g p))) := by
  induction fields with
  | nil => rfl
  | cons q rest ih =>
    obtain ⟨name, f⟩ := q
    have hl : lookupStr rep name = some (f.to_representation (g (name, f))) :=
      hlook (name, f) (List.mem_cons_self _ _)
    have hi : f.from_representation (f.to_representation (g (name, f))) =
        g (name, f) := hinv (name, f) (List.mem_cons_self _ _) (g (name, f))
    have hv : f.validate (g (name, f)) = .ok (g (name, f)) :=
      hval (name, f) (List.mem_cons_self _ _) (g (name, f))
    have htail := ih (fun p hp => hlook p (List.mem_cons_of_mem _ hp))
      (fun p hp => hinv p (List.mem_cons_of_mem _ hp))
      (fun p hp => hval p (List.mem_cons_of_mem _ hp))
    simp only [fromRepPairs, Bool.false_and, Bool.false_eq_true, if_false,
      hl, hi, hv, htail, List.map_cons]

theorem fromRepPairs_keyError
    (rep : List (String × Value)) (pre : List (String × FieldSpec))
    (name : String) (f : FieldSpec) (post : List (String × FieldSpec))
    (hpre : ∀ p ∈ pre, ∃ v w, lookupStr rep p.1 = some v ∧
      p.2.validate (p.2.from_representation v) = .ok w)
    (habsent : lookupStr rep name = none) :
    fromRepPairs (pre ++ (name, f) :: post) rep false =
      .error (.keyError name) := by
  induction pre with
  | nil => simp [fromRepPairs, habsent]
  | cons q pre' ih =>
    obtain ⟨qn, qf⟩ := q
    obtain ⟨v, w, hv, hw⟩ := hpre (qn, qf) (List.mem_cons_self _ _)
    have hv' : lookupStr rep qn = some v := hv
    have hw' : qf.validate (qf.from_representation v) = .ok w := hw
    have htail := ih (fun p hp => hpre p (List.mem_cons_of_mem _ hp))
    show fromRepPairs ((qn, qf) :: (pre' ++ (name, f) :: post)) rep false =
      .error (.keyError name)
    simp only [fromRepPairs, Bool.false_and, Bool.false_eq_true, if_false,
      hv', hw', htail]

/-!
## Claim theorems
-/

/-- Claim C1 (status: code bug, shown on the failing input of the
repository's own test `test_serializer_read_only_write_only_serialization`):
the claim says a `writeOnly` field is omitted from `to_representation`
output while a `readOnly` field is present, but
`BaseSerializer.to_representation` applies every field with no
visibility filtering, so on the test's object the write-only field
`writeonly` appears in the returned mapping (the read-only half does
hold: `readonly` is present). -/
theorem c1_to_representation_includes_write_only :
    to_representation c1Fields c1Obj =
      .ok ([("readonly", .str ("bar")), ("writeonly", .str ("foo"))]) ∧
    containsKey
      ([("readonly", Value.str ("bar")), ("writeonly", Value.str ("foo"))])
      ("writeonly") = true ∧
    containsKey
      ([("readonly", Value.str ("bar")), ("writeonly", Value.str ("foo"))])
      ("readonly") = true :=
  ⟨rfl, rfl, rfl⟩

/-- Claim C2 (status: code bug): on a requested type with no exact-match
entry for which MIME pattern matching succeeds (mimeparse returns the
nonempty best match `application/json; charset=UTF-8` among the
registered keys), `lookup_handler` is claimed to return the matched
codec and cache it under the requested string; instead the inverted
`assert not resolved` turns the successful pattern match into an
`AssertionError`, which the `except` clause converts into
`HTTPUnsupportedMediaType`, and the registry state is left unchanged
(nothing is cached). -/
theorem c2_pattern_match_raises_instead_of_caching :
    MediaHandlers.init ("application/json") none = .ok defaultRegistry ∧
    lookup_handler c2BestMatch defaultRegistry
        ("application/json; charset=latin-1") ("") =
      (.error (.unsupportedMediaType ("application/json; charset=latin-1")
        (["application/json", "application/json; charset=UTF-8"])),
       defaultRegistry) :=
  ⟨rfl, rfl⟩

/-- Claim C3, counterexample: the claim says decode reads all available
bytes when the declared length is unset or zero, but
`stream.read(content_length or 0)` reads zero bytes in both cases, so on
the nonempty stream `[1, 2, 3]` with no declared length the parser sees
the empty byte string and `deserialize` raises the bad-request error,
although the stand-in parser would accept the full stream. -/
theorem c3_zero_length_reads_nothing :
    readBytes ([1, 2, 3]) none = [] ∧
    readBytes ([1, 2, 3]) (some 0) = [] ∧
    specReadBytes ([1, 2, 3]) none = [1, 2, 3] ∧
    readBytes ([1, 2, 3]) none ≠ specReadBytes ([1, 2, 3]) none ∧
    JSONHandler.deserialize c3Loads ([1, 2, 3]) none =
      .error (.badRequest ("Could not parse JSON body - Expecting value")) ∧
    c3Loads ([1, 2, 3]) = .ok (.int 3) :=
  ⟨rfl, rfl, rfl, by decide, rfl, rfl⟩

/-- Claim C3 (amended): `deserialize` reads exactly up to the declared
length in bytes when the length is set and nonzero, reads zero bytes
when the length is unset or zero, and parses exactly the bytes read,
converting a parse failure into the bad-request error. -/
theorem c3_deserialize_reads_declared_length
    (loads : List Nat → Except String Value) (stream : List Nat)
    (content_length : Option Nat) :
    readBytes stream content_length = amendedReadBytes stream content_length ∧
    JSONHandler.deserialize loads stream content_length =
      (match loads (amendedReadBytes stream content_length) with
       | .ok v => .ok v
       | .error err =>
         .error (.badRequest ("Could not parse JSON body - " ++ err))) := by
  have hr : readBytes stream content_length =
      amendedReadBytes stream content_length := by
    match content_length with
    | none => rfl
    | some 0 => rfl
    | some (n + 1) => rfl
  refine ⟨hr, ?_⟩
  unfold JSONHandler.deserialize
  rw [hr]

/-- Claim C4: for a serializer type with a base table and directly
declared fields (both duplicate-free, as they come from dicts), the
ordered field mapping is the base table with re-declared names replaced
in place by the derived field, followed by the genuinely new derived
fields in declaration order; consequently its key list is exactly the
inherited keys followed by the new declared keys, with no duplicates. -/
theorem c4_get_fields_inheritance (base own : List (String × FieldSpec))
    (hb : (keysOf base).Nodup) (ho : (keysOf own).Nodup) :
    get_fields [base] own =
      base.map (overrideWith own) ++
        own.filter (fun p => !(containsKey base p.1)) ∧
    keysOf (get_fields [base] own) =
      keysOf base ++ (keysOf own).filter (fun k => !(containsKey base k)) ∧
    (keysOf (get_fields [base] own)).Nodup := by
  have h1 := get_fields_single base own hb ho
  have h2 : keysOf (get_fields [base] own) =
      keysOf base ++ (keysOf own).filter (fun k => !(containsKey base k)) := by
    rw [h1, keysOf_append, keysOf_map_overrideWith,
      keysOf_filter (fun k => !(containsKey base k)) own]
  refine ⟨h1, h2, ?_⟩
  rw [h2]
  refine List.Nodup.append hb (ho.filter _) ?_
  intro a ha hafil
  have hfa : containsKey base a = false := by
    simpa using (List.mem_filter.mp hafil).2
  exact containsKey_false_iff.mp hfa ha

/-- Witness for C4 at the overriding serializer of the repository test
`test_serializer_field_overriding` extended with a new `baz` field: the
derived table keeps `foo` (overridden in place) and `bar` in base order
and appends `baz`. -/
theorem c4_get_fields_inheritance_witness :
    (keysOf c4Base).Nodup ∧ (keysOf c4Own).Nodup ∧
    keysOf (get_fields [c4Base] c4Own) =
      keysOf c4Base ++ (keysOf c4Own).filter (fun k => !(containsKey c4Base k)) :=
  ⟨by decide, by decide,
    (c4_get_fields_inheritance c4Base c4Own (by decide) (by decide)).2.1⟩

/-- Claim C5, counterexample: the round-trip claim as stated fails on a
serializer whose fields have pure, mutually inverse transforms and
accepting validators, and an object defined (non-null) on every source
key: the wildcard-source field stores the whole object back under the
literal key `*`, and the `many` field is mapped element-wise by
`to_representation` but passed whole (not element-wise) to
`from_representation`, so the deserialized mapping differs from the
object restricted to the source keys. -/
theorem c5_roundtrip_counterexample :
    to_representation c5Fields (.obj c5Entries) =
      .ok ([("starfield", .obj c5Entries), ("up", .list [.int 0])]) ∧
    from_representation c5Fields
      ([("starfield", .obj c5Entries), ("up", .list [.int 0])]) false =
      .ok ([("*", .obj c5Entries), ("up", .list [.int 0])]) ∧
    restrictToSources c5Fields c5Entries =
      [("*", .str ("q")), ("up", .list [.null])] ∧
    ([("*", Value.obj c5Entries), ("up", Value.list [Value.int 0])] :
        List (String × Value)) ≠
      [("*", .str ("q")), ("up", .list [.null])] := by
  refine ⟨rfl, rfl, rfl, ?_⟩
  intro h
  have h2 : Value.obj c5Entries = Value.str ("q") :=
    congrArg (fun l => (l.headD (("", Value.null))).2) h
  exact Value.noConfusion h2

/-- Claim C5 (amended): for a serializer whose fields are scalar
(`many = false`) with non-wildcard sources, pure mutually inverse
transforms and validators accepting every value, and a map-like object
with a non-null value at every source key,
`from_representation (to_representation x)` succeeds and equals `x`
restricted to the fields' source keys; each field is read from its
source key, written under its external name, and written back under its
source key. -/
theorem c5_roundtrip_scalar_fields
    (fields : List (String × FieldSpec)) (kvs : List (String × Value))
    (hnames : (keysOf fields).Nodup)
    (hmany : ∀ p ∈ fields, p.2.many = false)
    (hsrc : ∀ p ∈ fields, sourceOr p.2 p.1 ≠ "*")
    (hinv : ∀ p ∈ fields, ∀ v,
      p.2.from_representation (p.2.to_representation v) = v)
    (hinv2 : ∀ p ∈ fields, ∀ v,
      p.2.to_representation (p.2.from_representation v) = v)
    (hval : ∀ p ∈ fields, ∀ v, p.2.validate v = .ok v)
    (hdef : ∀ p ∈ fields,
      ((lookupStr kvs (sourceOr p.2 p.1)).getD .null).isNull = false) :
    to_representation fields (.obj kvs) =
      .ok (fields.map (fun p => (p.1,
        p.2.to_representation ((lookupStr kvs (sourceOr p.2 p.1)).getD .null)))) ∧
    from_representation fields
      (fields.map (fun p => (p.1,
        p.2.to_representation ((lookupStr kvs (sourceOr p.2 p.1)).getD .null))))
      false =
      .ok (restrictToSources fields kvs) := by
  refine ⟨to_representation_of_obj fields kvs hmany hsrc hdef, ?_⟩
  have hpairs := fromRepPairs_of_lookups fields
    (fields.map (fun p => (p.1,
      p.2.to_representation ((lookupStr kvs (sourceOr p.2 p.1)).getD .null))))
    (fun p => (lookupStr kvs (sourceOr p.2 p.1)).getD .null)
    (fun p hp => lookupStr_map_keys fields
      (fun q => q.2.to_representation ((lookupStr kvs (sourceOr q.2 q.1)).getD .null))
      hnames p hp)
    hinv hval
  unfold from_representation
  rw [hpairs]
  rfl

/-- Witness for the amended C5 at the `_name`/`_address` serializer of
the repository test `test_serialiser_sources_representation`. -/
theorem c5_roundtrip_scalar_fields_witness :
    (keysOf c5NamedFields).Nodup ∧
    to_representation c5NamedFields (.obj c5NamedEntries) =
      .ok ([("name", .str ("John")), ("address", .str ("US"))]) ∧
    from_representation c5NamedFields
      ([("name", .str ("John")), ("address", .str ("US"))]) false =
      .ok ([("_name", .str ("John")), ("_address", .str ("US"))]) := by
  have h := c5_roundtrip_scalar_fields c5NamedFields c5NamedEntries
    (by decide)
    (by intro p hp; fin_cases hp <;> rfl)
    (by intro p hp; fin_cases hp <;> decide)
    (by intro p hp; fin_cases hp <;> exact fun v => rfl)
    (by intro p hp; fin_cases hp <;> exact fun v => rfl)
    (by intro p hp; fin_cases hp <;> exact fun v => rfl)
    (by intro p hp; fin_cases hp <;> rfl)
  exact ⟨by decide, h.1, h.2⟩

/-- Claim C6: a lookup with an empty media type (also modelling `None`)
or the wildcard substitutes the `default_media_type` argument when it is
set, and otherwise the registry's own configured default, and returns
the codec registered under that substituted type (assumed registered,
as the claim presupposes). -/
theorem c6_lookup_default_substitution
    (best_match : List String → String → Except Unit String)
    (self : MediaHandlers) (media_type default_media_type : String)
    (h : Handler)
    (hmt : media_type = "*/*" ∨ media_type = "")
    (hfound : lookupStr self.handlers
      (if default_media_type = "" then self.default_media_type
       else default_media_type) = some h) :
    lookup_handler best_match self media_type default_media_type =
      (.ok h, self) := by
  simp only [lookup_handler, if_pos hmt, hfound]

/-- Witness for C6: on the default registry, a wildcard lookup with an
unset default argument falls back to the registry default and yields the
JSON handler. -/
theorem c6_lookup_default_substitution_witness :
    (("*/*" : String) = "*/*" ∨ ("*/*" : String) = "") ∧
    lookupStr defaultRegistry.handlers
      (if ("" : String) = "" then defaultRegistry.default_media_type
       else "") = some jsonHandler ∧
    lookup_handler (fun _ _ => .error ()) defaultRegistry ("*/*") ("") =
      (.ok jsonHandler, defaultRegistry) :=
  ⟨Or.inl rfl, rfl,
    c6_lookup_default_substitution (fun _ _ => .error ()) defaultRegistry
      ("*/*") ("") jsonHandler (Or.inl rfl) rfl⟩

/-- Claim C7: on a nonempty, non-wildcard media type with no exact-match
entry, when pattern matching also fails to resolve a registered codec
(mimeparse raises, or returns a string that is not a registered key),
`lookup_handler` raises the unsupported-media-type error carrying the
rejected type and the registry's full allowed-media-type list, leaving
the registry unchanged. -/
theorem c7_lookup_unsupported_error
    (best_match : List String → String → Except Unit String)
    (self : MediaHandlers) (media_type default_media_type : String)
    (hne : media_type ≠ "") (hnw : media_type ≠ "*/*")
    (hmiss : lookupStr self.handlers media_type = none)
    (hpat : ∀ r, best_match (keysOf self.handlers) media_type = .ok r →
      lookupStr self.handlers r = none) :
    lookup_handler best_match self media_type default_media_type =
      (.error (.unsupportedMediaType media_type self.allowed_media_types),
       self) := by
  have hcond : ¬(media_type = "*/*" ∨ media_type = "") := by
    rintro (h | h)
    · exact hnw h
    · exact hne h
  simp only [lookup_handler, if_neg hcond, hmiss]
  cases hbm : best_match (keysOf self.handlers) media_type with
  | error e => rfl
  | ok r =>
    by_cases hr : r = ""
    · subst hr
      simp [hpat "" hbm]
    · simp [hr]

/-- Witness for C7: looking up `nope/json` on the default registry, with
a pattern matcher that raises, yields the unsupported-media-type error
enumerating the two allowed types. -/
theorem c7_lookup_unsupported_error_witness :
    lookupStr defaultRegistry.handlers ("nope/json") = none ∧
    lookup_handler (fun _ _ => .error ()) defaultRegistry ("nope/json") ("") =
      (.error (.unsupportedMediaType ("nope/json")
        (["application/json", "application/json; charset=UTF-8"])),
       defaultRegistry) :=
  ⟨rfl,
    c7_lookup_unsupported_error (fun _ _ => .error ()) defaultRegistry
      ("nope/json") ("") (by decide) (by decide) rfl
      (fun r hr => nomatch hr)⟩

/-- Claim C8: registry construction fails with the configuration
`ValueError` exactly when the default media type is not among the
handler keys after every supplied codec has contributed its allowed
media types as additional keys, and succeeds exactly when it is. -/
theorem c8_init_default_check (default_media_type : String)
    (handlers : Option (List (String × Handler))) :
    ((∃ R, MediaHandlers.init default_media_type handlers = .ok R) ↔
      containsKey (resolvedHandlers handlers) default_media_type = true) ∧
    ((∃ msg, MediaHandlers.init default_media_type handlers =
        .error (.valueError msg)) ↔
      containsKey (resolvedHandlers handlers) default_media_type = false) := by
  cases hc : containsKey (resolvedHandlers handlers) default_media_type with
  | true =>
    have hok : MediaHandlers.init default_media_type handlers = .ok
        { default_media_type := default_media_type
          handlers := resolvedHandlers handlers
          allowed_media_types :=
            (default_media_type :: keysOf (resolvedHandlers handlers)).dedup } := by
      unfold MediaHandlers.init
      rw [if_pos hc]
    refine ⟨⟨fun _ => rfl, fun _ => ⟨_, hok⟩⟩, ⟨fun hmsg => ?_, fun hf => ?_⟩⟩
    · obtain ⟨msg, hmsg⟩ := hmsg
      rw [hok] at hmsg
      cases hmsg
    · cases hf
  | false =>
    have herr : MediaHandlers.init default_media_type handlers = .error
        (.valueError ("no handler for default media type \x27" ++
          default_media_type ++ "\x27")) := by
      unfold MediaHandlers.init
      rw [if_neg (by simp [hc])]
    refine ⟨⟨fun hR => ?_, fun ht => ?_⟩, ⟨fun _ => rfl, fun _ => ⟨_, herr⟩⟩⟩
    · obtain ⟨R, hR⟩ := hR
      rw [herr] at hR
      cases hR
    · cases ht

/-- Claim C9, counterexample: with the first field present but failing
its validator chain and the second field absent from the representation,
`from_representation` with `partial` false surfaces the validation
(deserialization) error of the first field rather than a key-lookup
error for the absent one, so the claim as universally stated fails. -/
theorem c9_validation_error_precedes_missing_key :
    lookupStr c9Rep ("b") = none ∧
    from_representation c9Fields c9Rep false = .error (.valueError ("boom")) ∧
    PyErr.isKeyError (.valueError ("boom")) = false :=
  ⟨rfl, rfl, rfl⟩

/-- Claim C9 (amended): if every field preceding a given field is
present in the representation and converts and validates successfully,
and the given field's external name is absent, then
`from_representation` with `partial` false fails with a key-lookup
error naming that field, rather than skipping it, substituting null, or
raising a deserialization error. -/
theorem c9_missing_key_raises_key_error
    (fields : List (String × FieldSpec)) (rep : List (String × Value))
    (pre : List (String × FieldSpec)) (name : String) (f : FieldSpec)
    (post : List (String × FieldSpec))
    (hsplit : fields = pre ++ (name, f) :: post)
    (hpre : ∀ p ∈ pre, ∃ v w, lookupStr rep p.1 = some v ∧
      p.2.validate (p.2.from_representation v) = .ok w)
    (habsent : lookupStr rep name = none) :
    from_representation fields rep false = .error (.keyError name) := by
  subst hsplit
  unfold from_representation
  rw [fromRepPairs_keyError rep pre name f post hpre habsent]

/-- Witness for the amended C9: a single-field serializer given an empty
representation fails with `KeyError` for that field. -/
theorem c9_missing_key_raises_key_error_witness :
    lookupStr ([] : List (String × Value)) ("a") = none ∧
    from_representation ([("a", exampleField)]) ([]) false =
      .error (.keyError ("a")) :=
  ⟨rfl,
    c9_missing_key_raises_key_error ([("a", exampleField)]) ([]) ([]) ("a")
      exampleField ([]) rfl (fun p hp => absurd hp (List.not_mem_nil p)) rfl⟩

/-- Claim C10: when the empty string is not a registered key, every
lookup either returns a handler that is among the stored handler values
or raises an unsupported-media-type error, and in both cases the
registry (in particular its handlers mapping) is unchanged. -/
theorem c10_lookup_frame
    (best_match : List String → String → Except Unit String)
    (self : MediaHandlers) (media_type default_media_type : String)
    (hempty : lookupStr self.handlers "" = none) :
    lookupOutcomeOk
      (lookup_handler best_match self media_type default_media_type).1 self ∧
    (lookup_handler best_match self media_type default_media_type).2 =
      self := by
  simp only [lookup_handler]
  generalize (if media_type = "*/*" ∨ media_type = "" then
      if default_media_type = "" then self.default_media_type
      else default_media_type
    else media_type) = mt
  cases hlk : lookupStr self.handlers mt with
  | some h =>
    exact ⟨lookupStr_mem_values hlk, rfl⟩
  | none =>
    cases hbm : best_match (keysOf self.handlers) mt with
    | error e => exact ⟨trivial, rfl⟩
    | ok r =>
      by_cases hr : r = ""
      · subst hr
        simp [hempty, lookupOutcomeOk]
      · simp [hr, lookupOutcomeOk]

/-- Witness for C10 on the default registry, where the empty string is
not a registered key. -/
theorem c10_lookup_frame_witness :
    lookupStr defaultRegistry.handlers ("") = none ∧
    lookupOutcomeOk
      (lookup_handler (fun _ _ => .error ()) defaultRegistry ("text/html")
        ("")).1 defaultRegistry ∧
    (lookup_handler (fun _ _ => .error ()) defaultRegistry ("text/html")
      ("")).2 = defaultRegistry :=
  ⟨rfl,
    (c10_lookup_frame (fun _ _ => .error ()) defaultRegistry ("text/html")
      ("") rfl).1,
    (c10_lookup_frame (fun _ _ => .error ()) defaultRegistry ("text/html")
      ("") rfl).2⟩

end Graceful
